import Mathlib

/-!
Shallow embedding of the `midi-parse` repository (Rust) in Lean 4.

Conventions used throughout:
* Rust `u8` values are embedded as `Nat`; wherever overflow/underflow of the
  machine type matters we model the checked (debug) semantics of Rust
  arithmetic explicitly, a panic becoming `Option.none`.
* A Rust function that can panic is embedded with an `Option` layer: an outer
  `none` is a panic.  A Rust function returning `Option<T>` that can also
  panic is embedded as `Option (Option T)`: `none` is a panic,
  `some none` is Rust's `None`, `some (some x)` is Rust's `Some(x)`.
* `Vec` indexing `v[i]` is embedded with `List.get?`, out-of-bounds access
  being a panic.
-/

namespace MidiParse

/-- Name of a note (src/src/music.rs, `enum Letter`). -/
inductive Letter where
  | A | Bb | B | C | Db | D | Eb | E | F | Gb | G | Ab
  deriving DecidableEq, Repr

/-- The twelve letters in keyboard order (src/src/music.rs, `KEYBOARD`). -/
def KEYBOARD : List Letter :=
  [Letter.C, Letter.Db, Letter.D, Letter.Eb, Letter.E, Letter.F,
   Letter.Gb, Letter.G, Letter.Ab, Letter.A, Letter.Bb, Letter.B]

/-- Position of a letter in `KEYBOARD`
(`KEYBOARD.iter().position(|&x| x == l).unwrap()` in src/src/music.rs: the
unwrap never fails, every letter occurs in `KEYBOARD`). -/
def keyboardIndex (l : Letter) : Nat :=
  match l with
  | Letter.C => 0 | Letter.Db => 1 | Letter.D => 2 | Letter.Eb => 3
  | Letter.E => 4 | Letter.F => 5 | Letter.Gb => 6 | Letter.G => 7
  | Letter.Ab => 8 | Letter.A => 9 | Letter.Bb => 10 | Letter.B => 11

/-- `keyboardIndex` agrees with list search in `KEYBOARD`. -/
theorem keyboardIndex_eq_indexOf (l : Letter) :
    KEYBOARD.indexOf l = keyboardIndex l := by
  cases l <;> rfl

/-- `KEYBOARD` evaluated at `keyboardIndex`. -/
theorem KEYBOARD_getD_keyboardIndex (l : Letter) :
    KEYBOARD.getD (keyboardIndex l) Letter.C = l := by
  cases l <;> rfl

/-- `keyboardIndex` of `KEYBOARD[i]` for `i < 12`. -/
theorem keyboardIndex_KEYBOARD_getD (i : Nat) (h : i < 12) :
    keyboardIndex (KEYBOARD.getD i Letter.C) = i := by
  interval_cases i <;> rfl

/-- A note: letter and octave (src/src/music.rs, `struct Note`; the octave is
a `u8` in the source). -/
structure Note where
  letter : Letter
  octave : Nat
  deriving DecidableEq, Repr

/-- Midi status, first byte (src/src/messages.rs, `enum Status`). -/
inductive Status where
  | NoteOff | NoteOn | PolyphonicKeyPressure | ControlChange
  | ProgramChange | ChannelPressure | PitchBend | Unknown
  deriving DecidableEq, Repr

/-- Midi data, second and optional third bytes
(src/src/messages.rs, `enum Data`). -/
inductive Data where
  | KeyNumber (v : Nat)
  | Velocity (v : Nat)
  | ControllerNumber (v : Nat)
  | ControllerValue (v : Nat)
  | PressureAmount (v : Nat)
  | ProgramNumber (v : Nat)
  | PressureValue (v : Nat)
  | MSB (v : Nat)
  | LSB (v : Nat)
  | ResetAllControllers
  | LocalControl (v : Nat)
  | AllNotesOff
  | OmniModeOff
  | OmniModeOn
  | MonoModeOn
  | PolyModeOn
  | None
  deriving DecidableEq, Repr

/-- Raw message: bytes values (src/src/messages.rs, `message::Raw`). -/
structure Raw where
  stamp : Nat
  status : Nat
  data : List Nat
  deriving DecidableEq, Repr

/-- Midi message: custom type events (src/src/messages.rs, `message::Midi`;
the `[Data; 2]` payload array is embedded as a pair). -/
structure Midi where
  channel : Nat
  stamp : Nat
  status : Status
  data : Data × Data
  deriving DecidableEq, Repr

/-- Modelled from the spec: `conversions::encode_hex` (the module
`conversions.rs` is declared in src/src/main.rs but its file is not in the
sources).  Per the spec, `Raw::parse` is "keyed on the high nibble of the
status byte" and the channel is "the low nibble of the status byte": for a
byte `b`, `encode_hex(&[b])` is its two lowercase hex digits, so matching
`&hex[0..1]` against `"8" … "e"` is matching `b / 16` against `8 … 14`, and
`u8::from_str_radix(&hex[1..], 16).unwrap()` is `b % 16`.  Likewise matching
`encode_hex(&[data1])` against `"79" … "7f"` is matching `data1` against
`0x79 … 0x7f`. -/
def highNibble (b : Nat) : Nat := b / 16

/-- Low hex digit of a byte; see `highNibble`. -/
def lowNibble (b : Nat) : Nat := b % 16

/-- Parse a Raw message into a Midi message
(src/src/messages.rs, `message::Raw::parse`).  `none` models a panic from
out-of-bounds `Vec` indexing (`self.data[i]`). -/
def Raw.parse (r : Raw) : Option Midi :=
  if highNibble r.status = 8 then
    match r.data.get? 0, r.data.get? 1 with
    | some d0, some d1 =>
        some ⟨lowNibble r.status, r.stamp, Status.NoteOff,
              (Data.KeyNumber d0, Data.Velocity d1)⟩
    | _, _ => none
  else if highNibble r.status = 9 then
    match r.data.get? 0, r.data.get? 1 with
    | some d0, some d1 =>
        some ⟨lowNibble r.status, r.stamp, Status.NoteOn,
              (Data.KeyNumber d0, Data.Velocity d1)⟩
    | _, _ => none
  else if highNibble r.status = 10 then
    match r.data.get? 0, r.data.get? 1 with
    | some d0, some d1 =>
        some ⟨lowNibble r.status, r.stamp, Status.PolyphonicKeyPressure,
              (Data.KeyNumber d0, Data.PressureAmount d1)⟩
    | _, _ => none
  else if highNibble r.status = 11 then
    match r.data.get? 1 with
    | some d1 =>
        if d1 = 0x79 then
          some ⟨16, r.stamp, Status.ControlChange,
                (Data.ResetAllControllers, Data.None)⟩
        else if d1 = 0x7a then
          match r.data.get? 2 with
          | some d2 =>
              some ⟨16, r.stamp, Status.ControlChange,
                    (Data.LocalControl d2, Data.None)⟩
          | _ => none
        else if d1 = 0x7b then
          some ⟨16, r.stamp, Status.ControlChange,
                (Data.AllNotesOff, Data.None)⟩
        else if d1 = 0x7c then
          some ⟨16, r.stamp, Status.ControlChange,
                (Data.OmniModeOff, Data.None)⟩
        else if d1 = 0x7d then
          some ⟨16, r.stamp, Status.ControlChange,
                (Data.OmniModeOn, Data.None)⟩
        else if d1 = 0x7e then
          some ⟨16, r.stamp, Status.ControlChange,
                (Data.MonoModeOn, Data.None)⟩
        else if d1 = 0x7f then
          some ⟨16, r.stamp, Status.ControlChange,
                (Data.PolyModeOn, Data.None)⟩
        else
          match r.data.get? 0 with
          | some d0 =>
              some ⟨lowNibble r.status, r.stamp, Status.ControlChange,
                    (Data.ControllerNumber d0, Data.ControllerValue d1)⟩
          | _ => none
    | _ => none
  else if highNibble r.status = 12 then
    match r.data.get? 0 with
    | some d0 =>
        some ⟨lowNibble r.status, r.stamp, Status.ProgramChange,
              (Data.ProgramNumber d0, Data.None)⟩
    | _ => none
  else if highNibble r.status = 13 then
    match r.data.get? 0 with
    | some d0 =>
        some ⟨lowNibble r.status, r.stamp, Status.ChannelPressure,
              (Data.PressureValue d0, Data.None)⟩
    | _ => none
  else if highNibble r.status = 14 then
    match r.data.get? 0, r.data.get? 1 with
    | some d0, some d1 =>
        some ⟨lowNibble r.status, r.stamp, Status.PitchBend,
              (Data.MSB d0, Data.LSB d1)⟩
    | _, _ => none
  else
    some ⟨lowNibble r.status, r.stamp, Status.Unknown,
          (Data.None, Data.None)⟩

/-- Find letter and octave from midi key number
(src/src/music.rs, `Note::from_key_number`).  The source computes
`(x - 21) % 12` and `(x - 21) / 12` on `u8` with no range check, so for
`x < 21` the subtraction underflows and the call panics (outer `none`);
a non-`KeyNumber` argument returns Rust's `None` (`some none`). -/
def Note.from_key_number (d : Data) : Option (Option Note) :=
  match d with
  | Data.KeyNumber x =>
      if x < 21 then none
      else some (some ⟨KEYBOARD.getD ((x - 21) % 12) Letter.C, (x - 21) / 12⟩)
  | _ => some none

/-- The letter-string match in `Note::from_str` (src/src/music.rs): the
twelve recognized spellings. -/
def letterOfString (s : List Char) : Option Letter :=
  if s = ['C'] then some Letter.C
  else if s = ['D', 'b'] then some Letter.Db
  else if s = ['D'] then some Letter.D
  else if s = ['E', 'b'] then some Letter.Eb
  else if s = ['E'] then some Letter.E
  else if s = ['F'] then some Letter.F
  else if s = ['G', 'b'] then some Letter.Gb
  else if s = ['G'] then some Letter.G
  else if s = ['A', 'b'] then some Letter.Ab
  else if s = ['A'] then some Letter.A
  else if s = ['B', 'b'] then some Letter.Bb
  else if s = ['B'] then some Letter.B
  else none

/-- ASCII decimal digit test (`char::is_ascii_digit`). -/
def isDigitChar (c : Char) : Bool := decide (48 ≤ c.toNat ∧ c.toNat ≤ 57)

/-- Rust's `str::parse::<u8>()` on a string of characters: succeeds on a
nonempty all-digit string whose value fits in a `u8`. -/
def parseU8 (s : List Char) : Option Nat :=
  if s ≠ [] ∧ s.all isDigitChar then
    let v := s.foldl (fun a c => a * 10 + (c.toNat - 48)) 0
    if v ≤ 255 then some v else none
  else none

/-- Parse a note token (src/src/music.rs, `Note::from_str`).  The source
takes `letter_str = &s[0..s.len()-1]` (all but the last character) and
`octave_str = &s[s.len()-1..]` (the last character alone); on the empty
string the index arithmetic panics (outer `none`), and when the letter
matches, `octave_str.parse::<u8>().unwrap()` panics if the last character is
not a digit. -/
def Note.from_str (s : List Char) : Option (Option Note) :=
  if s.length = 0 then none
  else
    let letter_str := s.take (s.length - 1)
    let octave_str := s.drop (s.length - 1)
    match letterOfString letter_str with
    | some l =>
        match parseU8 octave_str with
        | some o => some (some ⟨l, o⟩)
        | none => none
    | none => some none

/-- The `u8 as i8` cast of Rust, on the `Nat` embedding of a `u8`. -/
def u8AsI8 (x : Nat) : Int :=
  if x % 256 < 128 then (x % 256 : Int) else (x % 256 : Int) - 256

/-- The arithmetic core of `Note::dist_to` (src/src/music.rs), on the cast
octaves `x`, `y` and the keyboard indices `si`, `oi`, with the checked
(debug) semantics of every `i8` operation made explicit:
`let octave_difference: i8 = self.octave as i8 - other.octave as i8` panics
when the difference leaves `i8`; in
`(self_index - other_index + octave_difference * 12).abs()` the
subtraction, the multiplication by 12 and the addition each panic on `i8`
overflow, and `abs()` panics on `-128`; the final
`.try_into::<u8>().unwrap()` then always succeeds. -/
def distCore (si oi x y : Int) : Option Nat :=
  if x - y < -128 ∨ 127 < x - y then none
  else if si - oi < -128 ∨ 127 < si - oi then none
  else if (x - y) * 12 < -128 ∨ 127 < (x - y) * 12 then none
  else if si - oi + (x - y) * 12 < -128 ∨ 127 < si - oi + (x - y) * 12 then
    none
  else if si - oi + (x - y) * 12 = -128 then none
  else some (si - oi + (x - y) * 12).natAbs

/-- Compute distance in semitones between two notes
(src/src/music.rs, `Note::dist_to`); `none` is a panic, see `distCore`. -/
def Note.dist_to (a b : Note) : Option Nat :=
  distCore (keyboardIndex a.letter) (keyboardIndex b.letter)
    (u8AsI8 a.octave) (u8AsI8 b.octave)

/-- Modelled from the spec: `Note::to_key_number` lives in the missing
module `music/note.rs` (it is called from src/src/midi.rs, `send_midi`).
Per the spec it is `BASE_OFFSET + octave*12 + indexOf(letter)` with
`BASE_OFFSET = 21`. -/
def Note.to_key_number (n : Note) : Nat :=
  21 + n.octave * 12 + keyboardIndex n.letter

/-- Modelled from the spec: `music::common::Interval` lives in the missing
module `music/common.rs` (used by src/src/music/scale.rs).  Per the spec an
Interval is "a named semitone offset, integer-valued, starting at 0
(unison)", extending past an octave so that the `+12` lift of every diatonic
degree exists; we embed it by its semitone value. -/
def Interval : Type := Nat

instance : DecidableEq Interval := fun a b => instDecidableEqNat a b

/-- Semitone value of an interval. -/
def Interval.semitones (i : Interval) : Nat := i

/-- Unison, 0 semitones (spec §4.3 predefined sequences). -/
def Interval.Unison : Interval := (0 : Nat)

/-- Major second, 2 semitones. -/
def Interval.MajorSecond : Interval := (2 : Nat)

/-- Minor third, 3 semitones. -/
def Interval.MinorThird : Interval := (3 : Nat)

/-- Major third, 4 semitones. -/
def Interval.MajorThird : Interval := (4 : Nat)

/-- Perfect fourth, 5 semitones. -/
def Interval.Fourth : Interval := (5 : Nat)

/-- Perfect fifth, 7 semitones. -/
def Interval.Fifth : Interval := (7 : Nat)

/-- Minor sixth, 8 semitones. -/
def Interval.MinorSixth : Interval := (8 : Nat)

/-- Major sixth, 9 semitones. -/
def Interval.MajorSixth : Interval := (9 : Nat)

/-- Minor seventh, 10 semitones. -/
def Interval.MinorSeventh : Interval := (10 : Nat)

/-- Major seventh, 11 semitones. -/
def Interval.MajorSeventh : Interval := (11 : Nat)

/-- The same interval one octave higher: the
`num::FromPrimitive::from_u32(i as u32 + 12)` lift used in
src/src/music/scale.rs, total in our embedding (the spec requires the
octave-up variant of every degree to be derivable). -/
def Interval.octaveUp (i : Interval) : Interval :=
  (Interval.semitones i + 12 : Nat)

/-- Modelled from the spec: `Note + Interval` (the `Add` impl lives in the
missing module `music/note.rs`, used by `self.root + n` in
src/src/music/scale.rs).  Per the spec §4.1: "new letter index is
`(indexOf(letter) + intervalSemitones) mod 12`; new octave is
`octave + floor((indexOf(letter) + intervalSemitones) / 12)`". -/
def Note.addInterval (n : Note) (i : Interval) : Note :=
  ⟨KEYBOARD.getD ((keyboardIndex n.letter + i.semitones) % 12) Letter.C,
   n.octave + (keyboardIndex n.letter + i.semitones) / 12⟩

/-- Chord abstraction (src/src/music.rs, `struct Chord`; the richer chord
module `music/chord.rs` is not in the sources). -/
structure Chord where
  notes : List Note
  deriving DecidableEq, Repr

/-- A scale consists in a root Note and a vector of Intervals
(src/src/music/scale.rs, `struct Scale`). -/
structure Scale where
  root : Note
  intervals : List Interval

/-- Major scale intervals (src/src/music/scale.rs, `Scale::MAJOR`). -/
def Scale.MAJOR : List Interval :=
  [Interval.Unison, Interval.MajorSecond, Interval.MajorThird,
   Interval.Fourth, Interval.Fifth, Interval.MajorSixth,
   Interval.MajorSeventh]

/-- Minor (natural) scale intervals (src/src/music/scale.rs,
`Scale::MINOR`). -/
def Scale.MINOR : List Interval :=
  [Interval.Unison, Interval.MajorSecond, Interval.MinorThird,
   Interval.Fourth, Interval.Fifth, Interval.MinorSixth,
   Interval.MinorSeventh]

/-- Minor (harmonic) scale intervals (src/src/music/scale.rs,
`Scale::MINOR_HARMONIC`). -/
def Scale.MINOR_HARMONIC : List Interval :=
  [Interval.Unison, Interval.MajorSecond, Interval.MinorThird,
   Interval.Fourth, Interval.Fifth, Interval.MinorSixth,
   Interval.MajorSeventh]

/-- Get major scale from root Note (src/src/music/scale.rs,
`Scale::major`). -/
def Scale.major (root : Note) : Scale := ⟨root, Scale.MAJOR⟩

/-- Get minor (natural) scale from root Note (src/src/music/scale.rs,
`Scale::minor`). -/
def Scale.minor (root : Note) : Scale := ⟨root, Scale.MINOR⟩

/-- Get minor (harmonic) scale from root Note (src/src/music/scale.rs,
`Scale::minor_harmonic`). -/
def Scale.minor_harmonic (root : Note) : Scale := ⟨root, Scale.MINOR_HARMONIC⟩

/-- Get Note vector from Scale (src/src/music/scale.rs, `Scale::notes`):
maps each interval through `self.root + interval`. -/
def Scale.notes (s : Scale) : List Note :=
  s.intervals.map (fun interval => s.root.addInterval interval)

/-- Chord building by cyclic stepping (src/src/music/scale.rs,
`Scale::build_by_steps`).  The source concatenates the scale's intervals
with the same intervals lifted one octave up (`i as u32 + 12` through
`num::FromPrimitive`, total in our embedding of Interval — the spec requires
every octave-up degree to be derivable), then iterates
`.cycle().skip(root).step_by(step).map(|n| self.root + n).take(length)`:
on a nonempty interval list the element taken at step `k` is the doubled
list at index `(root + k*step) mod len`, on an empty list the cycle is
empty, and `step_by(0)` panics (`none`). -/
def Scale.build_by_steps (s : Scale) (root step length : Nat) :
    Option (List Note) :=
  if step = 0 then none
  else if s.intervals = [] then some []
  else
    let intervals := s.intervals ++ s.intervals.map Interval.octaveUp
    some ((List.range length).map (fun k =>
      s.root.addInterval (intervals.getD ((root + k * step) % intervals.length)
        Interval.Unison)))

/-- One chord built by thirds (src/src/music/scale.rs, `Scale::one`);
`none` propagates a `build_by_steps` panic (never happens: step is 2). -/
def Scale.one (s : Scale) (len : Nat) : Option Chord :=
  (s.build_by_steps 0 2 len).map Chord.mk

/-- Two chord built by thirds (src/src/music/scale.rs, `Scale::two`). -/
def Scale.two (s : Scale) (len : Nat) : Option Chord :=
  (s.build_by_steps 1 2 len).map Chord.mk

/-- Three chord built by thirds (src/src/music/scale.rs, `Scale::three`). -/
def Scale.three (s : Scale) (len : Nat) : Option Chord :=
  (s.build_by_steps 2 2 len).map Chord.mk

/-- Four chord built by thirds (src/src/music/scale.rs, `Scale::four`). -/
def Scale.four (s : Scale) (len : Nat) : Option Chord :=
  (s.build_by_steps 3 2 len).map Chord.mk

/-- Five chord built by thirds (src/src/music/scale.rs, `Scale::five`). -/
def Scale.five (s : Scale) (len : Nat) : Option Chord :=
  (s.build_by_steps 4 2 len).map Chord.mk

/-- Six chord built by thirds (src/src/music/scale.rs, `Scale::six`). -/
def Scale.six (s : Scale) (len : Nat) : Option Chord :=
  (s.build_by_steps 5 2 len).map Chord.mk

/-- Seven chord built by thirds (src/src/music/scale.rs, `Scale::seven`). -/
def Scale.seven (s : Scale) (len : Nat) : Option Chord :=
  (s.build_by_steps 6 2 len).map Chord.mk

/-! ## Helper lemmas -/

/-- Every keyboard index is at most 11. -/
theorem keyboardIndex_le (l : Letter) : keyboardIndex l ≤ 11 := by
  cases l <;> simp [keyboardIndex]

/-- The `u8 as i8` cast lands in the `i8` range. -/
theorem u8AsI8_bounds (x : Nat) : -128 ≤ u8AsI8 x ∧ u8AsI8 x ≤ 127 := by
  unfold u8AsI8
  have h : x % 256 < 256 := Nat.mod_lt _ (by norm_num)
  split <;> omega

/-- The `u8 as i8` cast is the identity below 128. -/
theorem u8AsI8_of_le (x : Nat) (h : x ≤ 127) : u8AsI8 x = (x : Int) := by
  unfold u8AsI8
  rw [Nat.mod_eq_of_lt (by omega)]
  split <;> omega

/-- `distCore` is symmetric in its two argument pairs: whenever one
direction panics so does the other, and the surviving absolute values
agree. -/
theorem distCore_symm (si oi x y : Int)
    (hsi0 : 0 ≤ si) (hsi : si ≤ 11) (hoi0 : 0 ≤ oi) (hoi : oi ≤ 11) :
    distCore si oi x y = distCore oi si y x := by
  unfold distCore
  split_ifs <;>
    first
      | rfl
      | (exfalso; omega)
      | (rw [show oi - si + (y - x) * 12 = -(si - oi + (x - y) * 12) from by
            ring, Int.natAbs_neg])

/-! ## C7 -/

/-- C7: semitone distance is symmetric: for all notes `a` and `b`,
`a.dist_to b` equals `b.dist_to a` (including the panic cases, which occur
for exactly the same pairs in both directions). -/
theorem dist_to_symm (a b : Note) : a.dist_to b = b.dist_to a := by
  unfold Note.dist_to
  exact distCore_symm _ _ _ _
    (by positivity) (by exact_mod_cast keyboardIndex_le a.letter)
    (by positivity) (by exact_mod_cast keyboardIndex_le b.letter)

/-! ## C6 -/

/-- C6 counterexample: `dist_to` does not return the linear absolute
semitone distance for every pair of notes: at `C0` and `C11` the distance
is 132, but the checked `i8` multiplication `octave_difference * 12`
overflows (`-11 * 12 = -132 < -128`) and the call panics. -/
theorem dist_to_cex :
    Note.dist_to ⟨Letter.C, 0⟩ ⟨Letter.C, 11⟩ = none ∧
    ((keyboardIndex Letter.C : Int) - (keyboardIndex Letter.C : Int)
        + 12 * ((0 : Int) - 11)).natAbs = 132 := by
  constructor
  · rfl
  · decide

/-- C6 amended: `dist_to` returns the linear absolute semitone distance
`|(indexOf(a.letter) - indexOf(b.letter)) + 12*(a.octave - b.octave)|`
(over the fixed 12-letter chromatic ordering, not modular distance) for
every pair of notes whose intermediate `i8` computations fit: octaves at
most 127, octave difference at most 10 in magnitude and total at most 127
in magnitude; outside that range the checked `i8` arithmetic can overflow
and the call panics.  In particular `dist(C0, E0) = 4`,
`dist(C0, E1) = 16` and `dist(B0, C1) = 1`. -/
theorem dist_to_amended (a b : Note)
    (ha : a.octave ≤ 127) (hb : b.octave ≤ 127)
    (hod : -10 ≤ (a.octave : Int) - (b.octave : Int) ∧
           (a.octave : Int) - (b.octave : Int) ≤ 10)
    (hsum : -127 ≤ (keyboardIndex a.letter : Int) - (keyboardIndex b.letter : Int)
              + ((a.octave : Int) - (b.octave : Int)) * 12 ∧
            (keyboardIndex a.letter : Int) - (keyboardIndex b.letter : Int)
              + ((a.octave : Int) - (b.octave : Int)) * 12 ≤ 127) :
    (Note.dist_to a b =
      some (((keyboardIndex a.letter : Int) - (keyboardIndex b.letter : Int)
        + ((a.octave : Int) - (b.octave : Int)) * 12).natAbs)) ∧
    Note.dist_to ⟨Letter.C, 0⟩ ⟨Letter.E, 0⟩ = some 4 ∧
    Note.dist_to ⟨Letter.C, 0⟩ ⟨Letter.E, 1⟩ = some 16 ∧
    Note.dist_to ⟨Letter.B, 0⟩ ⟨Letter.C, 1⟩ = some 1 := by
  refine ⟨?_, rfl, rfl, rfl⟩
  have hka := keyboardIndex_le a.letter
  have hkb := keyboardIndex_le b.letter
  have hka' : (keyboardIndex a.letter : Int) ≤ 11 := by exact_mod_cast hka
  have hkb' : (keyboardIndex b.letter : Int) ≤ 11 := by exact_mod_cast hkb
  have h0a : (0 : Int) ≤ (keyboardIndex a.letter : Int) := by positivity
  have h0b : (0 : Int) ≤ (keyboardIndex b.letter : Int) := by positivity
  unfold Note.dist_to distCore
  rw [u8AsI8_of_le _ ha, u8AsI8_of_le _ hb]
  split_ifs <;> first | rfl | (exfalso; omega)

/-- C6 amended witness: the in-range formula applied at C0 and E1
(distance 16). -/
theorem dist_to_amended_witness :
    Note.dist_to ⟨Letter.C, 0⟩ ⟨Letter.E, 1⟩ =
      some (((keyboardIndex Letter.C : Int) - (keyboardIndex Letter.E : Int)
        + (((0 : Nat) : Int) - ((1 : Nat) : Int)) * 12).natAbs) :=
  (dist_to_amended ⟨Letter.C, 0⟩ ⟨Letter.E, 1⟩ (by decide) (by decide)
    (by constructor <;> decide) (by constructor <;> decide)).1

/-! ## C3 -/

/-- C3: for every valid key number `k` in the supported instrument range
(21 to 108 on the reference 88-key layout), converting `k` to a Note and
back is the identity: `Note::from_key_number` on `KeyNumber k` returns a
note whose `to_key_number` is `k`. -/
theorem from_key_number_to_key_number (k : Nat) (h1 : 21 ≤ k) (h2 : k ≤ 108) :
    ∃ n : Note, Note.from_key_number (Data.KeyNumber k) = some (some n) ∧
      n.to_key_number = k := by
  refine ⟨⟨KEYBOARD.getD ((k - 21) % 12) Letter.C, (k - 21) / 12⟩, ?_, ?_⟩
  · simp only [Note.from_key_number]
    rw [if_neg (by omega)]
  · unfold Note.to_key_number
    simp only
    rw [keyboardIndex_KEYBOARD_getD _ (Nat.mod_lt _ (by norm_num))]
    omega

/-- C3 witness: the round trip at key number 60. -/
theorem from_key_number_to_key_number_witness :
    ∃ n : Note, Note.from_key_number (Data.KeyNumber 60) = some (some n) ∧
      n.to_key_number = 60 :=
  from_key_number_to_key_number 60 (by decide) (by decide)

/-! ## C4 -/

/-- C4 counterexample: `Note::from_key_number` does not return empty for
key numbers outside the valid domain: at key number 20 (below the lowest
key 21) the `u8` subtraction `x - 21` underflows and the call panics
instead of returning `None`, and at key number 200 (above any 88-key
layout) it happily returns a note. -/
theorem from_key_number_cex :
    Note.from_key_number (Data.KeyNumber 20) = none ∧
    Note.from_key_number (Data.KeyNumber 200) =
      some (some ⟨Letter.B, 14⟩) := by
  constructor <;> rfl

/-- C4 amended: `Note::from_key_number` performs no range check at all:
for every `KeyNumber k` with `k ≥ 21` (even beyond the top key 108) it
returns the Note with letter `KEYBOARD[(k - 21) mod 12]` and octave
`(k - 21) div 12`; for `k < 21` the `u8` subtraction underflows and the
call panics rather than returning empty; it returns empty exactly when the
argument is not a `KeyNumber`. -/
theorem from_key_number_amended (k : Nat) :
    (21 ≤ k → Note.from_key_number (Data.KeyNumber k) =
      some (some ⟨KEYBOARD.getD ((k - 21) % 12) Letter.C, (k - 21) / 12⟩)) ∧
    (k < 21 → Note.from_key_number (Data.KeyNumber k) = none) ∧
    (∀ d : Data, (∀ x, d ≠ Data.KeyNumber x) →
      Note.from_key_number d = some none) := by
  refine ⟨?_, ?_, ?_⟩
  · intro h
    simp only [Note.from_key_number]
    rw [if_neg (by omega)]
  · intro h
    simp only [Note.from_key_number]
    rw [if_pos h]
  · intro d hd
    cases d <;> first
      | rfl
      | (exact absurd rfl (hd _))

/-- C4 amended witness: the three branches at key numbers 25 and 5 and at
a `Velocity` payload. -/
theorem from_key_number_amended_witness :
    Note.from_key_number (Data.KeyNumber 25) =
      some (some ⟨KEYBOARD.getD ((25 - 21) % 12) Letter.C, (25 - 21) / 12⟩) ∧
    Note.from_key_number (Data.KeyNumber 5) = none ∧
    Note.from_key_number (Data.Velocity 9) = some none :=
  ⟨(from_key_number_amended 25).1 (by decide),
   (from_key_number_amended 5).2.1 (by decide),
   (from_key_number_amended 0).2.2 (Data.Velocity 9)
     (fun x h => Data.noConfusion h)⟩

/-! ## C5 -/

/-- `parseU8` on a single digit character. -/
theorem parseU8_single_digit (c : Char) (h : isDigitChar c = true) :
    parseU8 [c] = some (c.toNat - 48) := by
  have hb : 48 ≤ c.toNat ∧ c.toNat ≤ 57 := by
    simpa [isDigitChar] using h
  unfold parseU8
  rw [if_pos (by simp [h])]
  simp only [List.foldl]
  rw [if_pos (by omega)]
  simp

/-- `parseU8` on a single non-digit character. -/
theorem parseU8_single_nondigit (c : Char) (h : ¬ isDigitChar c = true) :
    parseU8 [c] = none := by
  unfold parseU8
  rw [if_neg (by simp [h])]

/-- C5 counterexample: `Note::from_str` does not accept octave suffixes of
more than one digit: the token "A10" (which the claim says parses to
letter A, octave 10) is split into letter prefix "A1" and octave suffix
"0", the prefix matches no letter spelling, and the parse returns `None`
instead of the note A10. -/
theorem from_str_cex :
    Note.from_str ['A', '1', '0'] = some none ∧
    some (Option.none : Option Note) ≠
      some (some (⟨Letter.A, 10⟩ : Note)) := by
  constructor
  · rfl
  · simp

/-- C5 amended: `Note::from_str` splits the token at the last character
(letter prefix = all but the last character, octave suffix = the single
last character, so the octave is limited to one decimal digit): it returns
`None` when the prefix is not one of the 12 recognized spellings, returns
the note when the prefix matches and the last character is a digit, and
panics (rather than failing cleanly) when the prefix matches but the last
character is not a digit, or on the empty token.  In particular "A0"
parses to letter A, octave 0, and "Bb2" to letter Bb, octave 2. -/
theorem from_str_amended (s : List Char) (hne : s ≠ []) :
    (letterOfString (s.take (s.length - 1)) = none →
      Note.from_str s = some none) ∧
    (∀ l c, letterOfString (s.take (s.length - 1)) = some l →
      s.drop (s.length - 1) = [c] →
      (isDigitChar c = true → Note.from_str s = some (some ⟨l, c.toNat - 48⟩)) ∧
      (¬ isDigitChar c = true → Note.from_str s = none)) ∧
    Note.from_str ['A', '0'] = some (some ⟨Letter.A, 0⟩) ∧
    Note.from_str ['B', 'b', '2'] = some (some ⟨Letter.Bb, 2⟩) := by
  have hlen : s.length ≠ 0 := by simpa using hne
  refine ⟨?_, ?_, rfl, rfl⟩
  · intro hno
    unfold Note.from_str
    rw [if_neg hlen]
    simp only [hno]
  · intro l c hl hc
    constructor
    · intro hd
      unfold Note.from_str
      rw [if_neg hlen]
      simp only [hl, hc, parseU8_single_digit c hd]
    · intro hd
      unfold Note.from_str
      rw [if_neg hlen]
      simp only [hl, hc, parseU8_single_nondigit c hd]

/-- C5 amended witness: the three branches, at the tokens "X3" (unknown
prefix), "Db7" (well-formed) and "Cb" (matching prefix "C" followed by the
non-digit "b", a panic). -/
theorem from_str_amended_witness :
    Note.from_str ['X', '3'] = some none ∧
    Note.from_str ['D', 'b', '7'] = some (some ⟨Letter.Db, '7'.toNat - 48⟩) ∧
    Note.from_str ['C', 'b'] = none :=
  ⟨(from_str_amended ['X', '3'] (by simp)).1 rfl,
   (((from_str_amended ['D', 'b', '7'] (by simp)).2.1 Letter.Db '7'
      rfl rfl).1 (by rfl)),
   (((from_str_amended ['C', 'b'] (by simp)).2.1 Letter.C 'b'
      rfl rfl).2 (by decide))⟩

/-! ## C8 -/

/-- C8: `Scale::notes` maps every interval of the (undoubled) interval
sequence through `root + interval`, preserving sequence order; in
particular the C0 major scale's notes have letters [C,D,E,F,G,A,B] in
order and the A0 natural-minor scale's notes have letters [A,B,C,D,E,F,G]
in order. -/
theorem scale_notes_spec :
    (∀ s : Scale,
      Scale.notes s = s.intervals.map (fun i => s.root.addInterval i)) ∧
    (Scale.major ⟨Letter.C, 0⟩).notes.map Note.letter =
      [Letter.C, Letter.D, Letter.E, Letter.F, Letter.G, Letter.A,
       Letter.B] ∧
    (Scale.minor ⟨Letter.A, 0⟩).notes.map Note.letter =
      [Letter.A, Letter.B, Letter.C, Letter.D, Letter.E, Letter.F,
       Letter.G] := by
  exact ⟨fun s => rfl, by decide, by decide⟩

/-! ## C9 -/

/-- C9: degree chords are built by cyclic stepping through the doubled
interval sequence: for a nonzero step and a nonempty scale,
`build_by_steps degreeIndex stepSize length` concatenates the scale's
intervals with the same intervals lifted one octave up, then takes the
interval at doubled-sequence position `(degreeIndex + k*stepSize) mod
(doubled length)` for `k = 0, …, length-1` (wrapping indefinitely), each
mapped through `root + interval`; the named helpers `one` … `seven` are
`build_by_steps (degree-1) 2 len`; on the C0 major scale the one-chord of
length 3 has letters [C,E,G] and the two-chord has letters [D,F,A]. -/
theorem build_by_steps_spec :
    (∀ (s : Scale) (d step len : Nat), step ≠ 0 → s.intervals ≠ [] →
      s.build_by_steps d step len =
        some ((List.range len).map (fun k =>
          s.root.addInterval
            ((s.intervals ++ s.intervals.map Interval.octaveUp).getD
              ((d + k * step) %
                (s.intervals ++ s.intervals.map Interval.octaveUp).length)
              Interval.Unison)))) ∧
    (∀ (s : Scale) (len : Nat),
      s.one len = (s.build_by_steps 0 2 len).map Chord.mk ∧
      s.two len = (s.build_by_steps 1 2 len).map Chord.mk ∧
      s.three len = (s.build_by_steps 2 2 len).map Chord.mk ∧
      s.four len = (s.build_by_steps 3 2 len).map Chord.mk ∧
      s.five len = (s.build_by_steps 4 2 len).map Chord.mk ∧
      s.six len = (s.build_by_steps 5 2 len).map Chord.mk ∧
      s.seven len = (s.build_by_steps 6 2 len).map Chord.mk) ∧
    ((Scale.major ⟨Letter.C, 0⟩).one 3).map
        (fun c => c.notes.map Note.letter) =
      some [Letter.C, Letter.E, Letter.G] ∧
    ((Scale.major ⟨Letter.C, 0⟩).two 3).map
        (fun c => c.notes.map Note.letter) =
      some [Letter.D, Letter.F, Letter.A] := by
  refine ⟨?_, fun s len => ⟨rfl, rfl, rfl, rfl, rfl, rfl, rfl⟩,
    by decide, by decide⟩
  intro s d step len hstep hne
  unfold Scale.build_by_steps
  rw [if_neg hstep, if_neg hne]

/-- C9 witness: the general stepping formula applied to the C0 major
scale's one-chord of length 3. -/
theorem build_by_steps_spec_witness :
    (Scale.major ⟨Letter.C, 0⟩).build_by_steps 0 2 3 =
      some [⟨Letter.C, 0⟩, ⟨Letter.E, 0⟩, ⟨Letter.G, 0⟩] := by
  rw [build_by_steps_spec.1 (Scale.major ⟨Letter.C, 0⟩) 0 2 3
    (by decide) (by decide)]
  decide

/-! ## C1 -/

/-- C1: `Raw::parse` classifies a raw message by the high nibble of the
status byte — 8 ↦ NoteOff [KeyNumber(data0), Velocity(data1)],
9 ↦ NoteOn [KeyNumber(data0), Velocity(data1)],
A ↦ PolyphonicKeyPressure [KeyNumber(data0), PressureAmount(data1)],
C ↦ ProgramChange [ProgramNumber(data0), None],
D ↦ ChannelPressure [PressureValue(data0), None],
E ↦ PitchBend [MSB(data0), LSB(data1)], and any high nibble outside the
channel-voice set ↦ Unknown [None, None] — with the event's channel the
low nibble of the status byte in every case; in particular status 0x90
with data [60, 100] yields NoteOn, channel 0,
[KeyNumber(60), Velocity(100)]. -/
theorem parse_classifies_by_high_nibble (r : Raw) (d0 d1 : Nat)
    (h0 : r.data.get? 0 = some d0) (h1 : r.data.get? 1 = some d1) :
    (highNibble r.status = 8 → r.parse =
      some ⟨lowNibble r.status, r.stamp, Status.NoteOff,
            (Data.KeyNumber d0, Data.Velocity d1)⟩) ∧
    (highNibble r.status = 9 → r.parse =
      some ⟨lowNibble r.status, r.stamp, Status.NoteOn,
            (Data.KeyNumber d0, Data.Velocity d1)⟩) ∧
    (highNibble r.status = 10 → r.parse =
      some ⟨lowNibble r.status, r.stamp, Status.PolyphonicKeyPressure,
            (Data.KeyNumber d0, Data.PressureAmount d1)⟩) ∧
    (highNibble r.status = 12 → r.parse =
      some ⟨lowNibble r.status, r.stamp, Status.ProgramChange,
            (Data.ProgramNumber d0, Data.None)⟩) ∧
    (highNibble r.status = 13 → r.parse =
      some ⟨lowNibble r.status, r.stamp, Status.ChannelPressure,
            (Data.PressureValue d0, Data.None)⟩) ∧
    (highNibble r.status = 14 → r.parse =
      some ⟨lowNibble r.status, r.stamp, Status.PitchBend,
            (Data.MSB d0, Data.LSB d1)⟩) ∧
    (highNibble r.status ≠ 8 → highNibble r.status ≠ 9 →
     highNibble r.status ≠ 10 → highNibble r.status ≠ 11 →
     highNibble r.status ≠ 12 → highNibble r.status ≠ 13 →
     highNibble r.status ≠ 14 → r.parse =
      some ⟨lowNibble r.status, r.stamp, Status.Unknown,
            (Data.None, Data.None)⟩) ∧
    Raw.parse ⟨0, 0x90, [60, 100]⟩ =
      some ⟨0, 0, Status.NoteOn, (Data.KeyNumber 60, Data.Velocity 100)⟩ := by
  refine ⟨?_, ?_, ?_, ?_, ?_, ?_, ?_, by decide⟩ <;>
    · intros
      simp_all [Raw.parse]

/-- C1 witness: a NoteOff message on channel 5. -/
theorem parse_classifies_by_high_nibble_witness :
    Raw.parse ⟨7, 0x85, [1, 2]⟩ =
      some ⟨5, 7, Status.NoteOff, (Data.KeyNumber 1, Data.Velocity 2)⟩ :=
  (parse_classifies_by_high_nibble ⟨7, 0x85, [1, 2]⟩ 1 2 rfl rfl).1 rfl

/-! ## C2 -/

/-- C2: for a status byte with high nibble B, `Raw::parse` first checks the
second data byte against the reserved channel-mode controller numbers
0x79–0x7F: on a match the event's channel is forced to 16 and the payload
is the single semantic marker (ResetAllControllers for 0x79, LocalControl
of the third data byte for 0x7A, AllNotesOff for 0x7B, OmniModeOff for
0x7C, OmniModeOn for 0x7D, MonoModeOn for 0x7E, PolyModeOn for 0x7F) with
the second slot None; otherwise the event is an ordinary ControlChange
with payload [ControllerNumber(data0), ControllerValue(data1)] and channel
the low nibble of the status byte.  In particular status 0xB0 with data
[0, 0x7B] yields channel 16 and payload AllNotesOff. -/
theorem parse_control_change (r : Raw) (d0 d1 : Nat)
    (hB : highNibble r.status = 11)
    (h0 : r.data.get? 0 = some d0) (h1 : r.data.get? 1 = some d1) :
    (d1 = 0x79 → r.parse =
      some ⟨16, r.stamp, Status.ControlChange,
            (Data.ResetAllControllers, Data.None)⟩) ∧
    (∀ d2, r.data.get? 2 = some d2 → d1 = 0x7a → r.parse =
      some ⟨16, r.stamp, Status.ControlChange,
            (Data.LocalControl d2, Data.None)⟩) ∧
    (d1 = 0x7b → r.parse =
      some ⟨16, r.stamp, Status.ControlChange,
            (Data.AllNotesOff, Data.None)⟩) ∧
    (d1 = 0x7c → r.parse =
      some ⟨16, r.stamp, Status.ControlChange,
            (Data.OmniModeOff, Data.None)⟩) ∧
    (d1 = 0x7d → r.parse =
      some ⟨16, r.stamp, Status.ControlChange,
            (Data.OmniModeOn, Data.None)⟩) ∧
    (d1 = 0x7e → r.parse =
      some ⟨16, r.stamp, Status.ControlChange,
            (Data.MonoModeOn, Data.None)⟩) ∧
    (d1 = 0x7f → r.parse =
      some ⟨16, r.stamp, Status.ControlChange,
            (Data.PolyModeOn, Data.None)⟩) ∧
    (d1 < 0x79 ∨ 0x7f < d1 → r.parse =
      some ⟨lowNibble r.status, r.stamp, Status.ControlChange,
            (Data.ControllerNumber d0, Data.ControllerValue d1)⟩) ∧
    Raw.parse ⟨0, 0xB0, [0, 0x7B]⟩ =
      some ⟨16, 0, Status.ControlChange, (Data.AllNotesOff, Data.None)⟩ := by
  refine ⟨?_, ?_, ?_, ?_, ?_, ?_, ?_, ?_, by decide⟩
  · intro h; subst h; simp_all [Raw.parse]
  · intro d2 h2 h; subst h; simp_all [Raw.parse]
  · intro h; subst h; simp_all [Raw.parse]
  · intro h; subst h; simp_all [Raw.parse]
  · intro h; subst h; simp_all [Raw.parse]
  · intro h; subst h; simp_all [Raw.parse]
  · intro h; subst h; simp_all [Raw.parse]
  · intro h
    have e79 : d1 ≠ 0x79 := by omega
    have e7a : d1 ≠ 0x7a := by omega
    have e7b : d1 ≠ 0x7b := by omega
    have e7c : d1 ≠ 0x7c := by omega
    have e7d : d1 ≠ 0x7d := by omega
    have e7e : d1 ≠ 0x7e := by omega
    have e7f : d1 ≠ 0x7f := by omega
    simp_all [Raw.parse]

/-- C2 witness: LocalControl (0x7A) with control value 42, and the
ordinary ControlChange branch. -/
theorem parse_control_change_witness :
    Raw.parse ⟨9, 0xB3, [5, 0x7a, 42]⟩ =
      some ⟨16, 9, Status.ControlChange,
            (Data.LocalControl 42, Data.None)⟩ ∧
    Raw.parse ⟨9, 0xB3, [5, 6]⟩ =
      some ⟨3, 9, Status.ControlChange,
            (Data.ControllerNumber 5, Data.ControllerValue 6)⟩ :=
  ⟨(parse_control_change ⟨9, 0xB3, [5, 0x7a, 42]⟩ 5 0x7a rfl rfl rfl).2.1
      42 rfl rfl,
   (parse_control_change ⟨9, 0xB3, [5, 6]⟩ 5 6 rfl rfl rfl).2.2.2.2.2.2.2.1
      (by omega)⟩

/-! ## C10 -/

/-- C10: `Raw::parse` is total (no data-index panic) for every raw message
satisfying the length precondition of its status kind — no constraint when
the high nibble is outside 8–E, at least 1 data byte for C or D, at least
2 for 8, 9, A, E and for B when data[1] is not 0x7A, and at least 3 for B
when data[1] is 0x7A — and the produced event's timestamp equals the raw
message's timestamp. -/
theorem parse_total (r : Raw)
    (hCD : highNibble r.status = 12 ∨ highNibble r.status = 13 →
      1 ≤ r.data.length)
    (h89AE : highNibble r.status = 8 ∨ highNibble r.status = 9 ∨
      highNibble r.status = 10 ∨ highNibble r.status = 14 →
      2 ≤ r.data.length)
    (hB : highNibble r.status = 11 → 2 ≤ r.data.length)
    (hB7a : highNibble r.status = 11 → r.data.get? 1 = some 0x7a →
      3 ≤ r.data.length) :
    ∃ m : Midi, r.parse = some m ∧ m.stamp = r.stamp := by
  have hget : ∀ i, i < r.data.length → ∃ d, r.data[i]? = some d :=
    fun i h => ⟨r.data.get ⟨i, h⟩, by
      rw [← List.get?_eq_getElem?]; exact List.get?_eq_get h⟩
  by_cases h8 : highNibble r.status = 8
  · obtain ⟨d0, h0⟩ := hget 0 (by have := h89AE (Or.inl h8); omega)
    obtain ⟨d1, h1⟩ := hget 1 (by have := h89AE (Or.inl h8); omega)
    exact ⟨⟨lowNibble r.status, r.stamp, Status.NoteOff,
            (Data.KeyNumber d0, Data.Velocity d1)⟩,
           by simp [Raw.parse, h8, h0, h1], rfl⟩
  by_cases h9 : highNibble r.status = 9
  · obtain ⟨d0, h0⟩ := hget 0 (by have := h89AE (Or.inr (Or.inl h9)); omega)
    obtain ⟨d1, h1⟩ := hget 1 (by have := h89AE (Or.inr (Or.inl h9)); omega)
    exact ⟨⟨lowNibble r.status, r.stamp, Status.NoteOn,
            (Data.KeyNumber d0, Data.Velocity d1)⟩,
           by simp [Raw.parse, h8, h9, h0, h1], rfl⟩
  by_cases hA : highNibble r.status = 10
  · obtain ⟨d0, h0⟩ := hget 0
      (by have := h89AE (Or.inr (Or.inr (Or.inl hA))); omega)
    obtain ⟨d1, h1⟩ := hget 1
      (by have := h89AE (Or.inr (Or.inr (Or.inl hA))); omega)
    exact ⟨⟨lowNibble r.status, r.stamp, Status.PolyphonicKeyPressure,
            (Data.KeyNumber d0, Data.PressureAmount d1)⟩,
           by simp [Raw.parse, h8, h9, hA, h0, h1], rfl⟩
  by_cases hBn : highNibble r.status = 11
  · obtain ⟨d1, h1⟩ := hget 1 (by have := hB hBn; omega)
    by_cases e79 : d1 = 0x79
    · exact ⟨⟨16, r.stamp, Status.ControlChange,
              (Data.ResetAllControllers, Data.None)⟩,
             by simp [Raw.parse, h8, h9, hA, hBn, h1, e79], rfl⟩
    by_cases e7a : d1 = 0x7a
    · obtain ⟨d2, h2⟩ := hget 2 (by
        have := hB7a hBn (by
          subst e7a; rw [List.get?_eq_getElem?]; exact h1); omega)
      exact ⟨⟨16, r.stamp, Status.ControlChange,
              (Data.LocalControl d2, Data.None)⟩,
             by simp [Raw.parse, h8, h9, hA, hBn, h1, e79, e7a, h2], rfl⟩
    by_cases e7b : d1 = 0x7b
    · exact ⟨⟨16, r.stamp, Status.ControlChange,
              (Data.AllNotesOff, Data.None)⟩,
             by simp [Raw.parse, h8, h9, hA, hBn, h1, e79, e7a, e7b], rfl⟩
    by_cases e7c : d1 = 0x7c
    · exact ⟨⟨16, r.stamp, Status.ControlChange,
              (Data.OmniModeOff, Data.None)⟩,
             by simp [Raw.parse, h8, h9, hA, hBn, h1, e79, e7a, e7b, e7c],
             rfl⟩
    by_cases e7d : d1 = 0x7d
    · exact ⟨⟨16, r.stamp, Status.ControlChange,
              (Data.OmniModeOn, Data.None)⟩,
             by simp [Raw.parse, h8, h9, hA, hBn, h1, e79, e7a, e7b, e7c,
               e7d], rfl⟩
    by_cases e7e : d1 = 0x7e
    · exact ⟨⟨16, r.stamp, Status.ControlChange,
              (Data.MonoModeOn, Data.None)⟩,
             by simp [Raw.parse, h8, h9, hA, hBn, h1, e79, e7a, e7b, e7c,
               e7d, e7e], rfl⟩
    by_cases e7f : d1 = 0x7f
    · exact ⟨⟨16, r.stamp, Status.ControlChange,
              (Data.PolyModeOn, Data.None)⟩,
             by simp [Raw.parse, h8, h9, hA, hBn, h1, e79, e7a, e7b, e7c,
               e7d, e7e, e7f], rfl⟩
    · obtain ⟨d0, h0⟩ := hget 0 (by have := hB hBn; omega)
      exact ⟨⟨lowNibble r.status, r.stamp, Status.ControlChange,
              (Data.ControllerNumber d0, Data.ControllerValue d1)⟩,
             by simp [Raw.parse, h8, h9, hA, hBn, h0, h1, e79, e7a, e7b,
               e7c, e7d, e7e, e7f], rfl⟩
  by_cases hC : highNibble r.status = 12
  · obtain ⟨d0, h0⟩ := hget 0 (by have := hCD (Or.inl hC); omega)
    exact ⟨⟨lowNibble r.status, r.stamp, Status.ProgramChange,
            (Data.ProgramNumber d0, Data.None)⟩,
           by simp [Raw.parse, h8, h9, hA, hBn, hC, h0], rfl⟩
  by_cases hD : highNibble r.status = 13
  · obtain ⟨d0, h0⟩ := hget 0 (by have := hCD (Or.inr hD); omega)
    exact ⟨⟨lowNibble r.status, r.stamp, Status.ChannelPressure,
            (Data.PressureValue d0, Data.None)⟩,
           by simp [Raw.parse, h8, h9, hA, hBn, hC, hD, h0], rfl⟩
  by_cases hE : highNibble r.status = 14
  · obtain ⟨d0, h0⟩ := hget 0 (by
      have := h89AE (Or.inr (Or.inr (Or.inr hE))); omega)
    obtain ⟨d1, h1⟩ := hget 1 (by
      have := h89AE (Or.inr (Or.inr (Or.inr hE))); omega)
    exact ⟨⟨lowNibble r.status, r.stamp, Status.PitchBend,
            (Data.MSB d0, Data.LSB d1)⟩,
           by simp [Raw.parse, h8, h9, hA, hBn, hC, hD, hE, h0, h1], rfl⟩
  · exact ⟨⟨lowNibble r.status, r.stamp, Status.Unknown,
            (Data.None, Data.None)⟩,
           by simp [Raw.parse, h8, h9, hA, hBn, hC, hD, hE], rfl⟩

/-- C10 witness: totality and timestamp preservation on a LocalControl
channel-mode message (the 3-byte case) and on a bare Unknown message. -/
theorem parse_total_witness :
    (∃ m : Midi, Raw.parse ⟨3, 0xB0, [1, 0x7a, 5]⟩ = some m ∧ m.stamp = 3) ∧
    (∃ m : Midi, Raw.parse ⟨4, 0xF7, []⟩ = some m ∧ m.stamp = 4) :=
  ⟨parse_total ⟨3, 0xB0, [1, 0x7a, 5]⟩ (by decide) (by decide) (by decide)
     (by decide),
   parse_total ⟨4, 0xF7, []⟩ (by decide) (by decide) (by decide)
     (by decide)⟩

end MidiParse
